import Mathlib

/-!
Verification of the slide-extraction pipeline of `app.py` (YouTube-to-PDF
converter). Each Python function relevant to the frozen claims is shallowly
embedded as a Lean definition, and the claims are settled as theorems about
those definitions.
-/

namespace YtPdf

/-- Job status values stored in the `jobs` dictionary. -/
inductive JobStatus where
  | pending
  | processing
  | complete
  | failed
deriving DecidableEq, Repr

/-- One record of the `jobs` dictionary: `status`, `progress`, `stage`,
plus the result fields set on completion (`filepath`, `filename`). -/
structure JobRec where
  status : JobStatus
  progress : ℚ
  stage : String
  filepath : String
  filename : String
deriving DecidableEq, Repr

/-- The record inserted by `convert`:
`jobs[job_id] = {'status': 'pending', 'progress': 0, 'stage': 'Initializing'}`. -/
def initialJob : JobRec :=
  { status := .pending, progress := 0, stage := "Initializing",
    filepath := "", filename := "" }

section Detector

variable {α H : Type}

/-- Scene-change detection loop of `frames_to_pdf_generator` (app.py lines
75-104), restricted to the emissions made at step 4 (line 93-97): walking the
sampled frames with state `last_good_frame` (`held`) and `prev_hist` (`ph`),
at each frame the histogram is computed (`hist`), compared to the previous
one (`cmp`, the `HISTCMP_CORREL` score), and when the score is strictly below
the threshold `t` the held frame is yielded.  The end-of-input flush is NOT
included here. -/
def detectStep4From (hist : α → H) (cmp : H → H → ℚ) (t : ℚ) :
    Option α → Option H → List α → List α
  | _, _, [] => []
  | held, ph, f :: rest =>
      (match ph with
        | some p => if cmp p (hist f) < t then held.toList else []
        | none => []) ++ detectStep4From hist cmp t (some f) (some (hist f)) rest

/-- Full emission sequence of `frames_to_pdf_generator` (app.py lines
75-104): the step-4 emissions plus the final flush
`if last_good_frame is not None: yield last_good_frame` (lines 103-104). -/
def detectFrom (hist : α → H) (cmp : H → H → ℚ) (t : ℚ) :
    Option α → Option H → List α → List α
  | held, _, [] => held.toList
  | held, ph, f :: rest =>
      (match ph with
        | some p => if cmp p (hist f) < t then held.toList else []
        | none => []) ++ detectFrom hist cmp t (some f) (some (hist f)) rest

/-- The detector run from its initial state (`last_good_frame = None`,
`prev_hist = None`), flush included. -/
def detect (hist : α → H) (cmp : H → H → ℚ) (t : ℚ) (frames : List α) : List α :=
  detectFrom hist cmp t none none frames

/-- The step-4 emissions of the detector run from its initial state. -/
def detectStep4 (hist : α → H) (cmp : H → H → ℚ) (t : ℚ) (frames : List α) : List α :=
  detectStep4From hist cmp t none none frames

/-- The emission test of step 4, on an adjacent pair (previous, current):
emit the previous frame exactly when the histogram correlation score is
strictly below the threshold. -/
def emitTest (hist : α → H) (cmp : H → H → ℚ) (t : ℚ) (pc : α × α) : Option α :=
  if cmp (hist pc.1) (hist pc.2) < t then some pc.1 else none

lemma detectStep4From_cons (hist : α → H) (cmp : H → H → ℚ) (t : ℚ)
    (g : α) (rest : List α) :
    detectStep4From hist cmp t (some g) (some (hist g)) rest =
      ((g :: rest).zip rest).filterMap (emitTest hist cmp t) := by
  induction rest generalizing g with
  | nil => simp [detectStep4From]
  | cons f rs ih =>
      simp only [detectStep4From, List.zip_cons_cons, List.filterMap_cons, ih, emitTest]
      by_cases h : cmp (hist g) (hist f) < t <;> simp [h]

lemma detectFrom_eq_step4_append (hist : α → H) (cmp : H → H → ℚ) (t : ℚ) :
    ∀ (l : List α) (held : Option α) (ph : Option H),
    detectFrom hist cmp t held ph l =
      detectStep4From hist cmp t held ph l ++
        (match l.getLast? with
          | some g => [g]
          | none => held.toList) := by
  intro l
  induction l with
  | nil => intro held ph; simp [detectFrom, detectStep4From]
  | cons f rs ih =>
      intro held ph
      simp only [detectFrom, detectStep4From, ih (some f) (some (hist f)),
        List.append_assoc]
      cases rs <;> simp [List.getLast?]

lemma detect_characterization (hist : α → H) (cmp : H → H → ℚ) (t : ℚ)
    (f : α) (rest : List α) :
    detect hist cmp t (f :: rest) =
      ((f :: rest).zip rest).filterMap (emitTest hist cmp t) ++
        [(f :: rest).getLast (List.cons_ne_nil f rest)] := by
  have h4 : detectStep4 hist cmp t (f :: rest) =
      ((f :: rest).zip rest).filterMap (emitTest hist cmp t) := by
    simp only [detectStep4, detectStep4From, detectStep4From_cons]
    simp
  have := detectFrom_eq_step4_append hist cmp t (f :: rest) none none
  simp only [detect] at *
  rw [this]
  rw [show detectStep4From hist cmp t none none (f :: rest) =
    detectStep4 hist cmp t (f :: rest) from rfl, h4]
  have hlast : (f :: rest).getLast? = some ((f :: rest).getLast (List.cons_ne_nil f rest)) := by
    simp [List.getLast?_eq_getLast]
  rw [hlast]

end Detector

section Sanitize

/-- Python regex word character `\w` in the ASCII range: alphanumeric or
underscore. -/
def isPyWord (c : Char) : Bool :=
  c.isAlphanum || c = '_'

/-- Python regex whitespace `\s` (also what `str.strip()` removes) in the
ASCII range. -/
def isPySpace (c : Char) : Bool :=
  c = ' ' || c = '\t' || c = '\n' || c = '\r' || c = '\x0b' || c = '\x0c'

/-- The first regex substitution of app.py line 160, modelled on `List Char`: delete every character that is not a word
character, whitespace, or a hyphen. -/
def stripDisallowed (s : List Char) : List Char :=
  s.filter (fun c => isPyWord c || isPySpace c || c = '-')

/-- Python `str.strip()`: remove leading and trailing whitespace. -/
def pyStrip (s : List Char) : List Char :=
  ((s.dropWhile isPySpace).reverse.dropWhile isPySpace).reverse

/-- Worker for the second substitution of app.py line 161
(the second substitution, pattern [-\s]+ replaced by a hyphen): replace every maximal run of hyphens and
whitespace by a single hyphen.  `inRun` records whether the previous
character belonged to such a run. -/
def collapseRunsFrom (inRun : Bool) : List Char → List Char
  | [] => []
  | c :: rest =>
      if isPySpace c || c = '-' then
        if inRun then collapseRunsFrom true rest
        else '-' :: collapseRunsFrom true rest
      else c :: collapseRunsFrom false rest

/-- The second regex substitution of app.py line 161: runs of [-\s] become one hyphen. -/
def collapseRuns (s : List Char) : List Char :=
  collapseRunsFrom false s

/-- The sanitized display filename computed in `create_pdf_task`
(app.py lines 160-162): strip the characters outside [\w\s-], apply
str.strip, collapse runs of [-\s] to one hyphen, append ".pdf", and fall
back to "video-slides.pdf" when the string is empty.  Note that ".pdf" is appended before the emptiness test, exactly as in the
source. -/
def safe_filename (video_title : List Char) : List Char :=
  let s1 := pyStrip (stripDisallowed video_title)
  let s2 := collapseRuns s1 ++ ".pdf".toList
  if s2 = [] then "video-slides.pdf".toList else s2

end Sanitize

section Progress

/-- Body of `progress_hook` in `download_video` (app.py lines 25-35), for a
callback in the `downloading` state on an existing job.  The argument
`percent` is the outcome of `float(percent_str)`: `some p` when the string
parses as the number `p`, `none` when a `ValueError`/`TypeError` is raised,
in which case the job record is left untouched (`pass`). -/
def progress_hook (job : JobRec) (percent : Option ℚ) : JobRec :=
  match percent with
  | some p => { job with progress := p / 2, stage := "Downloading Video" }
  | none => job

/-- Per-iteration progress write of the analysis loop in
`frames_to_pdf_generator` (app.py lines 81-86):
`analysis_progress = (frame_count / total_frames) * 100 if total_frames > 0
else 0` and `progress = 50 + analysis_progress / 2`. -/
def analysisUpdate (job : JobRec) (frame_count total_frames : ℕ) : JobRec :=
  let analysis_progress : ℚ :=
    if 0 < total_frames then ((frame_count : ℚ) / (total_frames : ℚ)) * 100 else 0
  { job with progress := 50 + analysis_progress / 2,
             stage := "Analyzing Video for Slides" }

/-- Completion transition of `create_pdf_task` (app.py lines 170-175): sets
`status`, `filepath` and `filename` — the `progress` field is not touched. -/
def completeUpdate (job : JobRec) (path name : String) : JobRec :=
  { job with status := .complete, filepath := path, filename := name }

/-- One progress-relevant event in a job's lifetime: a download callback
(with the parse outcome of its percentage string), one iteration of the
analysis loop, or the final completion transition. -/
inductive ProgEvent where
  | dl (percent : Option ℚ)
  | analysis (frame_count total_frames : ℕ)
  | finish (path name : String)

/-- Effect of one event on the job record, as performed by the code. -/
def applyEvent (job : JobRec) : ProgEvent → JobRec
  | .dl p => progress_hook job p
  | .analysis fc tot => analysisUpdate job fc tot
  | .finish path name => completeUpdate job path name

/-- The conditions under which the code reaches each update: a download
callback carries a percentage in [0,100] (the collaborator contract), and an
analysis write happens only inside the `while frame_count < total_frames`
loop. -/
def ValidEvent : ProgEvent → Prop
  | .dl (some p) => 0 ≤ p ∧ p ≤ 100
  | .dl none => True
  | .analysis fc tot => fc < tot
  | .finish _ _ => True

instance : DecidablePred ValidEvent := by
  intro e
  cases e with
  | dl p => cases p <;> simp [ValidEvent] <;> infer_instance
  | analysis fc tot => simp [ValidEvent]; infer_instance
  | finish path name => simp [ValidEvent]; infer_instance

/-- A job record after a sequence of events. -/
def runEvents (job : JobRec) (es : List ProgEvent) : JobRec :=
  es.foldl applyEvent job

lemma analysisUpdate_lt_100 (job : JobRec) (fc tot : ℕ) (h : fc < tot) :
    (analysisUpdate job fc tot).progress < 100 := by
  have htot : 0 < tot := Nat.pos_of_ne_zero (by omega)
  have htotQ : (0 : ℚ) < (tot : ℚ) := by exact_mod_cast htot
  have hfcQ : (fc : ℚ) < (tot : ℚ) := by exact_mod_cast h
  simp only [analysisUpdate, htot, if_pos]
  have hdiv : (fc : ℚ) / (tot : ℚ) < 1 := (div_lt_one htotQ).mpr hfcQ
  nlinarith [hdiv]

lemma analysisUpdate_ge_50 (job : JobRec) (fc tot : ℕ) :
    50 ≤ (analysisUpdate job fc tot).progress := by
  simp only [analysisUpdate]
  by_cases htot : 0 < tot
  · simp only [htot, if_pos]
    have htotQ : (0 : ℚ) < (tot : ℚ) := by exact_mod_cast htot
    have : (0 : ℚ) ≤ (fc : ℚ) / (tot : ℚ) := by positivity
    nlinarith
  · simp [htot]

end Progress

section Sampler

/-- Python `int()` on a rational: truncation toward zero. -/
def pyInt (q : ℚ) : ℤ :=
  if 0 ≤ q then ⌊q⌋ else ⌈q⌉

/-- `fps = cap.get(cv2.CAP_PROP_FPS) or 30` (app.py line 66): the reported
frame rate when it is a nonzero number, 30 when the source reports 0 (or
nothing at all, `none`). -/
def effective_fps (reported : Option ℚ) : ℚ :=
  match reported with
  | none => 30
  | some f => if f = 0 then 30 else f

/-- `frame_interval = int(fps / sampling_rate_fps) or 1` (app.py line 67). -/
def frame_interval (fps sampling_rate_fps : ℚ) : ℤ :=
  if pyInt (fps / sampling_rate_fps) = 0 then 1 else pyInt (fps / sampling_rate_fps)

/-- The index progression of the sampling loop (app.py lines 71-101):
`frame_count` starts at 0, each iteration runs while `frame_count <
total_frames` and then advances by `stride`.  `fuel` bounds the number of
iterations; `total_frames` iterations always suffice when `stride` is at
least 1. -/
def sampleIndicesFrom (stride total : ℕ) : ℕ → ℕ → List ℕ
  | 0, _ => []
  | fuel + 1, cur =>
      if cur < total then cur :: sampleIndicesFrom stride total fuel (cur + stride)
      else []

/-- The frame indices read by the sampling loop: 0, stride, 2*stride, ...,
strictly below `total`. -/
def sampleIndices (stride total : ℕ) : List ℕ :=
  sampleIndicesFrom stride total total 0

lemma sampleIndicesFrom_spec (stride total : ℕ) (hs : 1 ≤ stride) :
    ∀ (fuel cur : ℕ), total ≤ cur + fuel * stride →
    sampleIndicesFrom stride total fuel cur =
      (List.range ((total - cur + stride - 1) / stride)).map (fun i => cur + i * stride) := by
  intro fuel
  induction fuel with
  | zero =>
      intro cur hfuel
      simp only [Nat.zero_mul, Nat.add_zero] at hfuel
      have hcur : ¬ cur < total := by omega
      have hcount : (total - cur + stride - 1) / stride = 0 :=
        Nat.div_eq_of_lt (by omega)
      simp [sampleIndicesFrom, hcur, hcount]
  | succ fuel ih =>
      intro cur hfuel
      have hexp : (fuel + 1) * stride = fuel * stride + stride := by ring
      by_cases hcur : cur < total
      · have hrec := ih (cur + stride) (by omega)
        have hcount : (total - cur + stride - 1) / stride =
            (total - (cur + stride) + stride - 1) / stride + 1 := by
          by_cases hd : total ≤ cur + stride
          · have h2 : (total - (cur + stride) + stride - 1) / stride = 0 :=
              Nat.div_eq_of_lt (by omega)
            have h3 : (total - cur + stride - 1) / stride = 1 := by
              apply Nat.div_eq_of_lt_le
              · have : stride ≤ total - cur + stride - 1 := by omega
                omega
              · have : total - cur + stride - 1 < 2 * stride := by omega
                omega
            rw [h2, h3]
          · push_neg at hd
            have h1 : total - cur + stride - 1 =
                (total - (cur + stride) + stride - 1) + stride := by omega
            rw [h1, Nat.add_div_right _ (by omega)]
        simp only [sampleIndicesFrom, hcur, if_pos, hrec, hcount,
          List.range_succ_eq_map, List.map_cons, List.map_map]
        congr 1
        · simp
        · apply List.map_congr_left
          intro i _
          simp only [Function.comp, Nat.succ_mul, Nat.succ_eq_add_one]
          ring
      · have hcount : (total - cur + stride - 1) / stride = 0 := by
          have : total - cur = 0 := by omega
          rw [this]; exact Nat.div_eq_of_lt (by omega)
        simp [sampleIndicesFrom, hcur, hcount]

end Sampler

section Assembler

variable {α : Type}

/-- The page/cleanup bookkeeping of `save_frames_to_pdf` (app.py lines
108-141): the pages added (one per frame whose `cv2.imwrite` succeeds, in
order), the number of per-frame temporary files removed by the `finally`
block, and the returned success flag (`processed_frames > 0`). -/
structure SaveOutcome (α : Type) where
  pages : List α
  tempsReleased : ℕ
  success : Bool
deriving Repr

/-- Loop of `save_frames_to_pdf` over the frame generator: when encoding a
frame fails (`is_success` false) the frame is skipped via `continue`, the
`finally` block still removing its temporary file; otherwise a page is
appended. -/
def saveLoop (encodeOk : α → Bool) : List α → List α × ℕ
  | [] => ([], 0)
  | f :: rest =>
      let r := saveLoop encodeOk rest
      (if encodeOk f then f :: r.1 else r.1, r.2 + 1)

/-- `save_frames_to_pdf` (app.py lines 108-141): runs the loop, then returns
`True` (after writing the document) exactly when at least one page was
produced, `False` otherwise (no document written). -/
def save_frames_to_pdf (encodeOk : α → Bool) (frames : List α) : SaveOutcome α :=
  let r := saveLoop encodeOk frames
  { pages := r.1, tempsReleased := r.2, success := decide (0 < r.1.length) }

lemma saveLoop_pages (encodeOk : α → Bool) (frames : List α) :
    (saveLoop encodeOk frames).1 = frames.filter encodeOk := by
  induction frames with
  | nil => simp [saveLoop]
  | cons f rest ih =>
      simp only [saveLoop, ih, List.filter_cons]

lemma saveLoop_temps (encodeOk : α → Bool) (frames : List α) :
    (saveLoop encodeOk frames).2 = frames.length := by
  induction frames with
  | nil => simp [saveLoop]
  | cons f rest ih => simp [saveLoop, ih]

end Assembler

section Task

variable {α H : Type}

/-- Observable outcome of one run of `create_pdf_task` (app.py lines
145-183): final job status, whether `pdf.output` wrote a document, whether
the workspace `temp_dir` was removed (`shutil.rmtree` on the failure path),
and the filename stored on completion. -/
structure TaskOutcome where
  status : JobStatus
  documentWritten : Bool
  workspaceReleased : Bool
  storedFilename : Option (List Char)
deriving Repr

/-- `create_pdf_task` (app.py lines 145-183), parameterized by the outcome
of the external download collaborator (`downloadResult`: the video title on
success, `none` on failure), the sampled frame sequence the opened video
yields, and the per-frame encoding outcome.  On download failure, or when
`save_frames_to_pdf` returns `False`, an exception is raised and the handler
sets the status to `failed` and removes the workspace; otherwise the job
completes with the sanitized filename stored. -/
def create_pdf_task (hist : α → H) (cmp : H → H → ℚ) (t : ℚ)
    (downloadResult : Option (List Char)) (sampled : List α)
    (encodeOk : α → Bool) : TaskOutcome :=
  match downloadResult with
  | none =>
      { status := .failed, documentWritten := false,
        workspaceReleased := true, storedFilename := none }
  | some video_title =>
      let kept := detect hist cmp t sampled
      let saved := save_frames_to_pdf encodeOk kept
      if saved.success then
        { status := .complete, documentWritten := true,
          workspaceReleased := false,
          storedFilename := some (safe_filename video_title) }
      else
        { status := .failed, documentWritten := false,
          workspaceReleased := true, storedFilename := none }

end Task

section Routes

/-- The shared `jobs` dictionary, keyed by job identifier. -/
def JobStore : Type := String → Option JobRec

/-- Response of the `/download/job_id` route: the 404 page or the
streamed file with its download name. -/
inductive DlResponse where
  | notFound
  | fileSent (filepath download_name : String)
deriving DecidableEq, Repr

/-- Response of the `/status/job_id` route: 404 or the snapshot
`{status, progress, stage, filename}`. -/
inductive StatusResponse where
  | notFound
  | snapshot (status : JobStatus) (progress : ℚ) (stage filename : String)
deriving DecidableEq, Repr

/-- `/status/job_id` (app.py lines 205-216): look the job up under the
lock; an absent identifier yields 404, otherwise the snapshot is returned. -/
def status_route (store : JobStore) (job_id : String) : StatusResponse :=
  match store job_id with
  | none => .notFound
  | some j => .snapshot j.status j.progress j.stage j.filename

/-- `/download/job_id` (app.py lines 218-242): a missing job or one whose
status is not `complete` yields 404 and leaves the store untouched.
Otherwise the file is sent; the `after_this_request` cleanup then removes
the workspace and deletes the job record, but when `shutil.rmtree` raises
(`cleanupOk = false`) the `except` swallows the error — the record deletion
is skipped, and the response is returned unchanged either way. -/
def download_route (store : JobStore) (job_id : String) (cleanupOk : Bool) :
    DlResponse × JobStore × Bool :=
  match store job_id with
  | none => (.notFound, store, false)
  | some j =>
      if j.status = .complete then
        if cleanupOk then
          (.fileSent j.filepath j.filename,
            fun k => if k = job_id then none else store k, true)
        else
          (.fileSent j.filepath j.filename, store, false)
      else (.notFound, store, false)

end Routes

/-- A concrete completed job record, for evaluating the route models. -/
def witnessJob : JobRec :=
  { status := .complete, progress := 99, stage := "done",
    filepath := "p", filename := "n" }

/-- A concrete one-entry job store holding `witnessJob` under key "a". -/
def witnessStore : JobStore :=
  fun k => if k = "a" then some witnessJob else none

/-! ## Claim theorems -/

/-- Claim C1: for every sampled frame sequence and every threshold `t`, the
step-4 emissions of the detector are exactly the left components of the
adjacent pairs of the sampled sequence whose histogram correlation score is
strictly below `t`: a frame is emitted only when a previous histogram exists
(the pairing starts at the second frame, so the very first sampled frame
never triggers an emission) and the emitted frame is the held frame
preceding the current one (the pair's first component), never the current
frame itself. -/
theorem C1_step4_emission_characterization {α H : Type}
    (hist : α → H) (cmp : H → H → ℚ) (t : ℚ) (frames : List α) :
    detectStep4 hist cmp t frames =
      (frames.zip frames.tail).filterMap (emitTest hist cmp t) := by
  cases frames with
  | nil => simp [detectStep4, detectStep4From]
  | cons f rest =>
      simp only [detectStep4, detectStep4From, detectStep4From_cons, List.tail_cons]
      simp

/-- Claim C2: the emitted sequence is never longer than the sampled
sequence; a non-empty sampled sequence yields at least one emission (the
end-of-input flush); a single-frame input yields exactly that frame, and its
step-4 emissions are empty (the single emission comes from the flush
alone). -/
theorem C2_emission_lengths {α H : Type}
    (hist : α → H) (cmp : H → H → ℚ) (t : ℚ) (frames : List α) (f : α) :
    (detect hist cmp t frames).length ≤ frames.length ∧
    (frames ≠ [] → 1 ≤ (detect hist cmp t frames).length) ∧
    detect hist cmp t [f] = [f] ∧
    detectStep4 hist cmp t [f] = [] := by
  refine ⟨?_, ?_, ?_, ?_⟩
  · cases frames with
    | nil => simp [detect, detectFrom]
    | cons g rest =>
        rw [detect_characterization]
        have h1 : (((g :: rest).zip rest).filterMap (emitTest hist cmp t)).length ≤
            ((g :: rest).zip rest).length := List.length_filterMap_le _ _
        have h2 : ((g :: rest).zip rest).length ≤ rest.length := by
          simp [List.length_zip]
        simp only [List.length_append, List.length_cons, List.length_nil]
        omega
  · intro hne
    obtain ⟨g, rest, rfl⟩ := List.exists_cons_of_ne_nil hne
    rw [detect_characterization]
    simp
  · simp [detect, detectFrom]
  · simp [detectStep4, detectStep4From]

/-- Claim C2 witness: on the concrete two-frame input `[7, 7]` the emitted
sequence has length at most 2 and at least 1. -/
theorem C2_emission_lengths_witness :
    (detect (fun n : ℕ => n) (fun _ _ => (0 : ℚ)) 1 [7, 7]).length ≤ 2 ∧
    1 ≤ (detect (fun n : ℕ => n) (fun _ _ => (0 : ℚ)) 1 [7, 7]).length := by
  have h := C2_emission_lengths (fun n : ℕ => n) (fun _ _ => (0 : ℚ)) 1 [7, 7] 7
  exact ⟨h.1, h.2.1 (by decide)⟩

/-- Claim C3 counterexample: a title consisting only of punctuation does NOT
yield the fixed default filename.  The emptiness check of app.py line 162
runs after ".pdf" has already been appended (line 161), so it can never
fire: the title "!!!" sanitizes to ".pdf", not to "video-slides.pdf". -/
theorem C3_punctuation_title_not_default :
    safe_filename "!!!".toList = ".pdf".toList ∧
    safe_filename "!!!".toList ≠ "video-slides.pdf".toList := by
  decide

/-- Claim C4: every progress value written by the download hook for a
percentage in [0,100] lies in [0,50] and is monotone in the reported
percentage; every progress value written by the analysis loop (whose guard
gives `frame_count < total_frames`) lies in [50,100] and is monotone in the
frame count; and a percentage string that does not parse as a number leaves
the job record entirely unchanged. -/
theorem C4_progress_phase_invariants :
    (∀ (job : JobRec) (p : ℚ), 0 ≤ p → p ≤ 100 →
      0 ≤ (progress_hook job (some p)).progress ∧
        (progress_hook job (some p)).progress ≤ 50) ∧
    (∀ (j1 j2 : JobRec) (p q : ℚ), p ≤ q →
      (progress_hook j1 (some p)).progress ≤ (progress_hook j2 (some q)).progress) ∧
    (∀ (job : JobRec) (fc tot : ℕ), fc < tot →
      50 ≤ (analysisUpdate job fc tot).progress ∧
        (analysisUpdate job fc tot).progress ≤ 100) ∧
    (∀ (j1 j2 : JobRec) (fc1 fc2 tot : ℕ), fc1 ≤ fc2 →
      (analysisUpdate j1 fc1 tot).progress ≤ (analysisUpdate j2 fc2 tot).progress) ∧
    (∀ job : JobRec, progress_hook job none = job) := by
  refine ⟨?_, ?_, ?_, ?_, ?_⟩
  · intro job p hp0 hp100
    simp only [progress_hook]
    constructor <;> linarith
  · intro j1 j2 p q hpq
    simp only [progress_hook]
    linarith
  · intro job fc tot h
    exact ⟨analysisUpdate_ge_50 job fc tot, le_of_lt (analysisUpdate_lt_100 job fc tot h)⟩
  · intro j1 j2 fc1 fc2 tot h
    simp only [analysisUpdate]
    by_cases htot : 0 < tot
    · simp only [htot, if_pos]
      have htotQ : (0 : ℚ) < (tot : ℚ) := by exact_mod_cast htot
      have hfc : (fc1 : ℚ) ≤ (fc2 : ℚ) := by exact_mod_cast h
      have : (fc1 : ℚ) / (tot : ℚ) ≤ (fc2 : ℚ) / (tot : ℚ) := by gcongr
      linarith
    · simp [htot]
  · intro job
    simp [progress_hook]

/-- Claim C4 witness: concrete instances — a parsed percentage of 80 maps
into [0,50] and respects monotonicity from 10, the analysis write at frame 1
of 4 lies in [50,100] and is below the write at frame 2 of 4, and an
unparsable percentage leaves the initial record unchanged. -/
theorem C4_progress_phase_invariants_witness :
    (0 ≤ (progress_hook initialJob (some 80)).progress ∧
      (progress_hook initialJob (some 80)).progress ≤ 50) ∧
    (progress_hook initialJob (some 10)).progress ≤
      (progress_hook initialJob (some 80)).progress ∧
    (50 ≤ (analysisUpdate initialJob 1 4).progress ∧
      (analysisUpdate initialJob 1 4).progress ≤ 100) ∧
    (analysisUpdate initialJob 1 4).progress ≤ (analysisUpdate initialJob 2 4).progress ∧
    progress_hook initialJob none = initialJob := by
  obtain ⟨h1, h2, h3, h4, h5⟩ := C4_progress_phase_invariants
  exact ⟨h1 initialJob 80 (by norm_num) (by norm_num),
    h2 initialJob initialJob 10 80 (by norm_num),
    h3 initialJob 1 4 (by norm_num),
    h4 initialJob initialJob 1 2 4 (by norm_num),
    h5 initialJob⟩

/-- Claim C5: when the download succeeded but the source yields no decodable
frame (the generator produces the empty sampled sequence), the assembler
returns failure with zero pages, so the task ends with status `failed`, no
document written, and the workspace removed. -/
theorem C5_no_decodable_frame_fails {α H : Type}
    (hist : α → H) (cmp : H → H → ℚ) (t : ℚ)
    (title : List Char) (encodeOk : α → Bool) :
    create_pdf_task hist cmp t (some title) [] encodeOk =
      { status := .failed, documentWritten := false,
        workspaceReleased := true, storedFilename := none } := by
  simp [create_pdf_task, detect, detectFrom, save_frames_to_pdf, saveLoop]

/-- Claim C6: the download route sends the file only when the job exists
with status `complete` (otherwise it answers not-found and leaves the store
unchanged); after a successful transfer with successful cleanup the
workspace is deleted and the record removed, so a second retrieval and a
status query both answer not-found; and a cleanup failure is never surfaced
— the response is still the file. -/
theorem C6_retrieve_lifecycle (store : JobStore) (job_id : String)
    (j : JobRec) (cOk : Bool) :
    (store job_id = none →
      download_route store job_id cOk = (.notFound, store, false)) ∧
    (store job_id = some j → j.status ≠ .complete →
      download_route store job_id cOk = (.notFound, store, false)) ∧
    (store job_id = some j → j.status = .complete →
      (download_route store job_id true).1 = .fileSent j.filepath j.filename ∧
      (download_route store job_id true).2.2 = true ∧
      (download_route store job_id true).2.1 job_id = none ∧
      status_route (download_route store job_id true).2.1 job_id = .notFound ∧
      (download_route (download_route store job_id true).2.1 job_id cOk).1 = .notFound ∧
      (download_route store job_id false).1 = .fileSent j.filepath j.filename) := by
  refine ⟨?_, ?_, ?_⟩
  · intro h
    simp [download_route, h]
  · intro h hst
    simp [download_route, h, hst]
  · intro h hst
    have herase : (download_route store job_id true).2.1 job_id = none := by
      simp [download_route, h, hst]
    have hnf : ∀ (s : JobStore) (c : Bool), s job_id = none →
        (download_route s job_id c).1 = .notFound := by
      intro s c hs
      simp [download_route, hs]
    refine ⟨by simp [download_route, h, hst], by simp [download_route, h, hst],
      herase, ?_, hnf _ cOk herase, by simp [download_route, h, hst]⟩
    simp [status_route, herase]

/-- Claim C6 witness: a one-job store whose job "a" is complete — the first
retrieval sends the file, the record is then gone, the second retrieval and
the status query answer not-found, and with failing cleanup the file is
still sent; on a store with no jobs the retrieval answers not-found. -/
theorem C6_retrieve_lifecycle_witness :
    (download_route (fun _ => none) "a" true = (.notFound, fun _ => none, false)) ∧
    (download_route witnessStore "a" true).1 = .fileSent "p" "n" ∧
    (download_route witnessStore "a" true).2.2 = true ∧
    (download_route witnessStore "a" true).2.1 "a" = none ∧
    status_route (download_route witnessStore "a" true).2.1 "a" = .notFound ∧
    (download_route (download_route witnessStore "a" true).2.1 "a" true).1 = .notFound ∧
    (download_route witnessStore "a" false).1 = .fileSent "p" "n" := by
  have h0 := (C6_retrieve_lifecycle (fun _ => none) "a" witnessJob true).1 rfl
  have h := (C6_retrieve_lifecycle witnessStore "a" witnessJob true).2.2 rfl rfl
  exact ⟨h0, h.1, h.2.1, h.2.2.1, h.2.2.2.1, h.2.2.2.2.1, h.2.2.2.2.2⟩

/-- Claim C7: a frame whose encode fails contributes no page — the
assembler just moves on to the rest — while its temporary file is still
released; in general the pages are exactly the frames whose encode succeeds,
in order, and one temporary file is released per consumed frame, so a
per-frame failure never aborts the run. -/
theorem C7_encode_failure_skipped {α : Type}
    (encodeOk : α → Bool) (f : α) (rest frames : List α) :
    (encodeOk f = false →
      (save_frames_to_pdf encodeOk (f :: rest)).pages =
        (save_frames_to_pdf encodeOk rest).pages ∧
      (save_frames_to_pdf encodeOk (f :: rest)).tempsReleased =
        (save_frames_to_pdf encodeOk rest).tempsReleased + 1) ∧
    (save_frames_to_pdf encodeOk frames).pages = frames.filter encodeOk ∧
    (save_frames_to_pdf encodeOk frames).tempsReleased = frames.length := by
  refine ⟨?_, ?_, ?_⟩
  · intro hf
    constructor
    · simp [save_frames_to_pdf, saveLoop, hf]
    · simp [save_frames_to_pdf, saveLoop]
  · exact saveLoop_pages encodeOk frames
  · exact saveLoop_temps encodeOk frames

/-- Claim C7 witness: with encode failing exactly on 0, the input
`[0, 1]` produces the same pages as `[1]` alone, releases one extra
temporary file, and overall yields pages `[1]` with two temporaries
released. -/
theorem C7_encode_failure_skipped_witness :
    (save_frames_to_pdf (fun n : ℕ => decide (n ≠ 0)) [0, 1]).pages =
      (save_frames_to_pdf (fun n : ℕ => decide (n ≠ 0)) [1]).pages ∧
    (save_frames_to_pdf (fun n : ℕ => decide (n ≠ 0)) [0, 1]).tempsReleased =
      (save_frames_to_pdf (fun n : ℕ => decide (n ≠ 0)) [1]).tempsReleased + 1 ∧
    (save_frames_to_pdf (fun n : ℕ => decide (n ≠ 0)) [0, 1]).pages =
      [0, 1].filter (fun n : ℕ => decide (n ≠ 0)) ∧
    (save_frames_to_pdf (fun n : ℕ => decide (n ≠ 0)) [0, 1]).tempsReleased = 2 := by
  have h := C7_encode_failure_skipped (fun n : ℕ => decide (n ≠ 0)) 0 [1] [0, 1]
  have hf := h.1 (by decide)
  exact ⟨hf.1, hf.2, h.2.1, h.2.2⟩

/-- Claim C8: for a non-negative source frame rate and a positive target
rate, the stride equals the floor of their quotient with a minimum of 1 when
that floor is 0; and for any stride of at least 1, the indices read by the
sampling loop are exactly 0, stride, 2*stride, ... strictly below the total
frame count. -/
theorem C8_stride_and_sampling (fps rate : ℚ) (stride total : ℕ) :
    (0 ≤ fps → 0 < rate →
      frame_interval fps rate =
        if ⌊fps / rate⌋ = 0 then 1 else ⌊fps / rate⌋) ∧
    (1 ≤ stride →
      sampleIndices stride total =
        (List.range ((total + stride - 1) / stride)).map (fun i => i * stride)) := by
  constructor
  · intro hfps hrate
    have hq : 0 ≤ fps / rate := div_nonneg hfps (le_of_lt hrate)
    simp [frame_interval, pyInt, hq]
  · intro hs
    have hfuel : total ≤ 0 + total * stride := by
      have := Nat.mul_le_mul_left total hs
      omega
    have h := sampleIndicesFrom_spec stride total hs total 0 hfuel
    simp only [sampleIndices, h, Nat.sub_zero]
    apply List.map_congr_left
    intro i _
    omega

/-- Claim C8 witness: at a source rate of 30 fps, target rate 1, the stride
is 30; with stride 3 and 7 total frames the loop reads indices 0, 3, 6. -/
theorem C8_stride_and_sampling_witness :
    frame_interval 30 1 = (if ⌊(30 : ℚ) / 1⌋ = 0 then 1 else ⌊(30 : ℚ) / 1⌋) ∧
    sampleIndices 3 7 = (List.range ((7 + 3 - 1) / 3)).map (fun i => i * 3) :=
  ⟨(C8_stride_and_sampling 30 1 3 7).1 (by norm_num) (by norm_num),
    (C8_stride_and_sampling 30 1 3 7).2 (by norm_num)⟩

/-- Claim C9: a source reporting no frame rate at all, or a frame rate of 0,
gets 30 substituted, and with the fixed target sampling rate of 1 frame per
second used by `create_pdf_task` the stride becomes 30. -/
theorem C9_zero_fps_fallback :
    effective_fps none = 30 ∧
    effective_fps (some 0) = 30 ∧
    frame_interval (effective_fps (some 0)) 1 = 30 ∧
    frame_interval (effective_fps none) 1 = 30 := by
  refine ⟨rfl, rfl, ?_, ?_⟩ <;>
    · show frame_interval 30 1 = 30
      norm_num [frame_interval, pyInt]

/-- Claim C10: starting from the freshly created job record (progress 0),
any sequence of valid events — download callbacks obeying the [0,100]
contract, analysis writes under the loop guard `frame_count < total_frames`,
and the completion transition, which does not touch progress at all — leaves
the stored progress strictly below 100. -/
theorem C10_progress_never_100 (es : List ProgEvent)
    (h : ∀ e ∈ es, ValidEvent e) :
    (runEvents initialJob es).progress < 100 ∧
    ∀ (j : JobRec) (path name : String),
      (applyEvent j (.finish path name)).progress = j.progress := by
  refine ⟨?_, fun j path name => rfl⟩
  have key : ∀ (l : List ProgEvent) (j : JobRec), (∀ e ∈ l, ValidEvent e) →
      j.progress < 100 → (runEvents j l).progress < 100 := by
    intro l
    induction l with
    | nil => intro j _ hj; exact hj
    | cons e rest ih =>
        intro j hv hj
        have he : ValidEvent e := hv e (List.mem_cons_self e rest)
        have hrest : ∀ x ∈ rest, ValidEvent x := fun x hx => hv x (List.mem_cons_of_mem e hx)
        have hstep : (applyEvent j e).progress < 100 := by
          cases e with
          | dl p =>
              cases p with
              | none => simpa [applyEvent, progress_hook] using hj
              | some q =>
                  obtain ⟨hq0, hq100⟩ := he
                  simp only [applyEvent, progress_hook]
                  linarith
          | analysis fc tot => exact analysisUpdate_lt_100 j fc tot he
          | finish path name => simpa [applyEvent, completeUpdate] using hj
        simpa [runEvents, List.foldl_cons] using ih (applyEvent j e) hrest hstep
  exact key es initialJob h (by norm_num [initialJob])

/-- Claim C10 witness: the concrete event sequence — a download callback at
100 percent, an analysis write at frame 1 of 2, and the completion
transition — leaves progress strictly below 100, and the completion
transition preserves any progress value. -/
theorem C10_progress_never_100_witness :
    (runEvents initialJob
      [.dl (some 100), .analysis 1 2, .finish "p" "n"]).progress < 100 ∧
    ∀ (j : JobRec) (path name : String),
      (applyEvent j (.finish path name)).progress = j.progress :=
  C10_progress_never_100 [.dl (some 100), .analysis 1 2, .finish "p" "n"]
    (by decide)

end YtPdf
